import Mathlib

/-!
Verification of the `tested-fixture` crate (runtime library `src/lib.rs` and
proc-macro `macros/src/lib.rs`) against its specification.

The development shallowly embeds:
* the memoization runtime generated by the macro: a `OnceCell` per fixture
  whose `get_or_init` runs the fixture body under `std::panic::catch_unwind`
  and stores `Result<func_out, &str>` with the sentinel `"panicked"` on
  abnormal termination (macro lines 110-121);
* the normalization chain `result.as_ref().map(|x| Fixer(x).fix().map(..))`
  of four `Fixer::fix` applications (macro lines 123-134), together with the
  helper traits `MakeResultRef`, `ReportSuccess`, `StaticallyBorrow`,
  `Unwrap`, `Fixer`/`Fix` of `src/lib.rs`;
* the attribute parser `Attr::parse` and the code emission of
  `tested_fixture_helper` of `macros/src/lib.rs`.

Rust error values are opaque to the library: the only operation ever applied
to an error is `Debug` formatting (`{:?}` in the `panic!` of
`Unwrap for Result`).  We therefore represent an error by the `String` that
its `Debug` implementation produces.  `Debug` for `&str` (and for references
to it, which delegate) surrounds the text with quotes; escaping of special
characters inside the text is abstracted away (the sentinel `"panicked"`
contains none).
-/

set_option autoImplicit false

namespace TestedFixture

/-- Debug formatting of a Rust `&str` (and of references to one, which
delegate): the text surrounded by double quotes. -/
def strDebug (s : String) : String := "\"" ++ s ++ "\""

/-! Section: Rust return types and values

`RTy` is the shape of a source function's declared return type as the crate
sees it: either some non-`Result` type (labelled by a `Nat` so distinct types
stay distinct), or `Result<inner, E>` for an opaque `Debug` error type `E`.
`RVal` is a runtime value of such a type; `err` carries the `Debug`
representation of the contained error value. -/

inductive RTy where
  | base : Nat → RTy
  | res : RTy → RTy
  deriving DecidableEq, Repr

/-- Number of `Result` layers in a return type. -/
def RTy.resDepth : RTy → Nat
  | .base _ => 0
  | .res t => t.resDepth + 1

/-- The non-`Result` core of a return type, with every `Result` layer
stripped. -/
def RTy.coreTy : RTy → RTy
  | .base i => .base i
  | .res t => t.coreTy

/-- A runtime value of a (possibly `Result`-wrapped) return type.  Leaf
values are labelled by a `Nat`; `err` carries the `Debug` representation of
the error value. -/
inductive RVal where
  | base : Nat → RVal
  | ok : RVal → RVal
  | err : String → RVal
  deriving DecidableEq, Repr

/-- The `wfR v t` holds when runtime value `v` is a value of return type `t`. -/
def wfR : RVal → RTy → Bool
  | .base _, .base _ => true
  | .ok v, .res t => wfR v t
  | .err _, .res _ => true
  | _, _ => false

/-- The `Debug` representation of the first (outermost) `Err` on the value's
spine, if any. -/
def firstErr : RVal → Option String
  | .base _ => none
  | .ok v => firstErr v
  | .err e => some e

/-- The leaf value under the `Ok` spine (junk `0` if an `Err` intervenes;
only used when `firstErr` is `none`). -/
def leafD : RVal → Nat
  | .base n => n
  | .ok v => leafD v
  | .err _ => 0

/-! Section: The memoization cell (macro lines 110-121)

The generated test holds `static CELL: OnceCell<Result<func_out, &str>>` and
runs `CELL.get_or_init(|| std::panic::catch_unwind(|| body).map_err(|_| "panicked"))`.
A body execution either returns a value or panics with some payload. -/

/-- One execution of the fixture body: it returns a value or panics with a
payload. -/
inductive BodyRun where
  | ret : RVal → BodyRun
  | panics : String → BodyRun
  deriving DecidableEq, Repr

/-- The cell's content type: `Result<func_out, &str>` — either the body's
returned value or the sentinel error string. -/
abbrev Outcome := Except String RVal

/-- The `std::panic::catch_unwind(|| body)`: a normal return becomes `Ok`, a
panic becomes `Err` carrying the payload. -/
def catchUnwind : BodyRun → Except String RVal
  | .ret v => .ok v
  | .panics p => .error p

/-- The value stored in the cell:
`std::panic::catch_unwind(|| body).map_err(|_| "panicked")` — the panic
payload is discarded and replaced by the fixed sentinel. -/
def storedOutcome (b : BodyRun) : Outcome :=
  match catchUnwind b with
  | .ok v => .ok v
  | .error _ => .error "panicked"

/-- The `OnceCell::get_or_init`: returns the stored value if the cell is filled,
otherwise invokes the initializer, stores its result and returns it.  The
third component counts how many times the initializer (the body) was
invoked by this call. -/
def get_or_init {α : Type} (cell : Option α) (f : Unit → α) : α × Option α × Nat :=
  match cell with
  | some v => (v, some v, 0)
  | none => (f (), some (f ()), 1)

/-- A sequence of `n` fixture accesses (the producing test and any dependent
tests, in any schedule order): each access routes through `get_or_init` on
the shared cell.  Returns the list of outcomes the accessors observed, the
final cell state, and the total number of body executions. -/
def runReads (b : BodyRun) : Nat → Option Outcome → List Outcome × Option Outcome × Nat
  | 0, c => ([], c, 0)
  | n + 1, c =>
    match get_or_init c (fun _ => storedOutcome b) with
    | (v, c', k) =>
      match runReads b n c' with
      | (vs, c'', m) => (v :: vs, c'', k + m)

/-! Section: The helper types of `src/lib.rs` -/

/-- The `pub struct ReportSuccess<T>(pub T);` — the always-succeeding wrapper
(its `Termination` impl reports `ExitCode::SUCCESS`). -/
structure ReportSuccess (T : Type) where
  val : T
  deriving DecidableEq, Repr

/-- The `pub struct Fixer<T>(pub T);` — the wrapper `fix` dispatches on. -/
structure Fixer (T : Type) where
  val : T
  deriving DecidableEq, Repr

/-- The `impl<T: 'static> Fix for Fixer<T>`: `fix(self) = Ok(ReportSuccess(self.0))`
with error type `Infallible` (modelled by the uninhabited `Empty`). -/
def Fix.fix {T : Type} (x : Fixer T) : Except Empty (ReportSuccess T) :=
  .ok ⟨x.val⟩

/-- The `impl<T: StaticallyBorrow> StaticallyBorrow for Result<T, Infallible>`:
`static_borrow` matches on `self.as_ref()`, delegating to the inner impl
(`inner`) in the `Ok` arm and hitting `unreachable!` in the `Err` arm.
`Result<T, Infallible>` is modelled as `Except Empty T`. -/
def static_borrow {T U : Type} (inner : T → U) : Except Empty T → U
  | .ok v => inner v
  | .error e => e.elim

/-! Section: Runtime values of the normalization chain

`CVal` is a runtime value of the expression the generated test returns
(macro lines 123-134): `Result` layers (`vok`/`verr`), `ReportSuccess`
layers (`rs`), and `&'static` references into the stored outcome (`ref`). -/

inductive CVal where
  | ref : RVal → CVal
  | rs : CVal → CVal
  | vok : CVal → CVal
  | verr : String → CVal
  deriving DecidableEq, Repr

/-- One `Fixer(x).fix()` application.  On a reference to a `Result` value
the inherent `Fixer::fix` applies (`MakeResultRef`: `self.as_ref()`, turning
`&Result<T, E>` into `Result<&T, &E>`); on any other input the trait
`Fix::fix` applies, wrapping into `Ok(ReportSuccess(x))`. -/
def fixV : CVal → CVal
  | .ref (.ok v) => .vok (.ref v)
  | .ref (.err e) => .verr e
  | c => .vok (.rs c)

/-- The chain of `n` `fix` applications from the macro:
`chainV 1 x = Fixer(x).fix()` and
`chainV (n+1) x = Fixer(x).fix().map(chainV n)`. -/
def chainV : Nat → CVal → CVal
  | 0, c => c
  | n + 1, c =>
    match fixV c with
    | .vok d => .vok (chainV n d)
    | e => e

/-- The full value the generated test returns, as a function of the cell's
stored outcome: `result.as_ref().map(|x| <four-fix chain>)`.  `as_ref` on
`Err(&str)` yields `Err(&&str)` whose `Debug` form quotes the sentinel. -/
def fullV (cell : Outcome) : CVal :=
  match cell with
  | .ok v => .vok (chainV 4 (.ref v))
  | .error s => .verr (strDebug s)

/-- The `StaticallyBorrow::static_borrow` at the value level: a `&'static T`
borrows itself; `ReportSuccess` delegates to its content; an (infallible)
`Ok` delegates to its content; the `Err` arm is the `unreachable!` of the
`Result<T, Infallible>` impl, which no well-typed value reaches. -/
def sbV : CVal → Option RVal
  | .ref v => some v
  | .rs c => sbV c
  | .vok c => sbV c
  | .verr _ => none

/-- The `Unwrap::unwrap` at the value level (`src/lib.rs` lines 231-244): on
`Result`, `Ok` recurses one layer down and `Err(e)` panics with
`"{context} failed: {e:?}"`; on `ReportSuccess` it returns
`self.static_borrow()`.  The two `.error` fallbacks without the
`" failed: "` shape stand for trait bounds that fail at compile time
(no `Unwrap` impl exists there), so no runtime value of an accepted
program reaches them. -/
def unwrapV (ctx : String) : CVal → Except String RVal
  | .vok c => unwrapV ctx c
  | .verr e => .error (ctx ++ " failed: " ++ e)
  | .rs c =>
    match sbV c with
    | some v => .ok v
    | none => .error "unreachable"
  | .ref _ => .error "no impl"

/-! Section: The chain and the traits at the type level

`CTy` mirrors `CVal` for Rust types: `res b inner` is `Result<inner, E>`
with `b = true` exactly when `E` is the uninhabited `Infallible`.  Trait
resolution for `StaticallyBorrow` and `Unwrap` is computed on these types,
so that a missing impl — a compile-time error in Rust — is a `false`
answer here. -/

inductive CTy where
  | ref : RTy → CTy
  | rs : CTy → CTy
  | res : Bool → CTy → CTy
  deriving DecidableEq, Repr

/-- The `Fixer(x).fix()` at the type level: a `&'static Result<T, E>` goes
through `MakeResultRef` to `Result<&T, &E>` (error type not `Infallible`);
anything else goes through `Fix` to `Result<ReportSuccess<_>, Infallible>`. -/
def fixTy : CTy → CTy
  | .ref (.res t) => .res false (.ref t)
  | c => .res true (.rs c)

/-- The type of the `n`-fix chain. -/
def chainTy : Nat → CTy → CTy
  | 0, c => c
  | n + 1, c =>
    match fixTy c with
    | .res b d => .res b (chainTy n d)
    | e => e

/-- The `StaticallyBorrow` resolution: `some t` when the impl exists with
associated type `Self::T = &'static t`.  Impls exist for `&'static T`
(yielding itself), `ReportSuccess<R>` and `Result<R, Infallible>`
(delegating); a `Result` with a fallible error type has no impl. -/
def sbTy : CTy → Option RTy
  | .ref t => some t
  | .rs c => sbTy c
  | .res true c => sbTy c
  | .res false _ => none

/-- The `Unwrap<u>` resolution: `ReportSuccess<R>` requires
`R: StaticallyBorrow<T = &'static u>`; `Result<R, E>` requires
`R: Unwrap<u>` (every error type here is `Debug`); a bare reference has no
impl. -/
def hasUnwrapImpl : CTy → RTy → Bool
  | .rs c, u => sbTy c == some u
  | .res _ c, u => hasUnwrapImpl c u
  | .ref _, _ => false

/-- The type of the full expression the generated test returns:
`Result<chain-of-4-type, &&str>` with a fallible (sentinel) error type. -/
def fullTy (t : RTy) : CTy :=
  .res false (chainTy 4 (.ref t))

/-! Section: The attribute payload parser (`macros/src/lib.rs` lines 33-62)

The payload is modelled at the granularity at which `Attr::parse` consumes
it: a token is one outer attribute (`#[...]` or a doc comment), one
visibility modifier, one identifier, the `:` token, or one type. -/

inductive ATok where
  | attrTok : Nat → ATok
  | vis : Nat → ATok
  | ident : String → ATok
  | colon : ATok
  | ty : RTy → ATok
  deriving DecidableEq, Repr

/-- The parsed attribute payload, mirroring `struct Attr`. -/
structure Attr where
  attrs : List Nat
  vis : Option Nat
  ident : String
  colon : Bool
  ty : Option RTy
  deriving DecidableEq, Repr

/-- The `Attribute::parse_outer`: greedily consume the leading outer
attributes. -/
def parseOuterAttrs : List ATok → List Nat × List ATok
  | .attrTok a :: rest =>
    let p := parseOuterAttrs rest
    (a :: p.1, p.2)
  | ts => ([], ts)

/-- The `input.parse::<Visibility>()`: consume one visibility modifier if
present (syn's `Visibility` parse yields `Inherited` on anything else). -/
def parseVis : List ATok → Option Nat × List ATok
  | .vis v :: rest => (some v, rest)
  | ts => (none, ts)

/-- The tail of `Attr::parse` after attributes and visibility: the
identifier, then — exactly when a `:` token follows (`input.peek(Token![:])`)
— the `:` and a type; `parse_macro_input!` then requires the stream to be
exhausted.  Anything else is a parse error (`none`), reported as a
compile-time diagnostic. -/
def parseTail (attrs : List Nat) (vis : Option Nat) : List ATok → Option Attr
  | .ident i :: [] => some ⟨attrs, vis, i, false, none⟩
  | .ident i :: .colon :: .ty t :: [] => some ⟨attrs, vis, i, true, some t⟩
  | _ => none

/-- The `Attr::parse` on the whole payload: attributes, then visibility, then
the identifier and optional `: type`. -/
def Attr.parse (ts : List ATok) : Option Attr :=
  parseTail (parseOuterAttrs ts).1 (parseVis (parseOuterAttrs ts).2).1
    (parseVis (parseOuterAttrs ts).2).2

/-- The optional visibility as a token sequence. -/
def visOpt : Option Nat → List ATok
  | none => []
  | some v => [.vis v]

/-- The optional `: type` suffix as a token sequence. -/
def tyOpt : Option RTy → List ATok
  | none => []
  | some t => [.colon, .ty t]

/-- The documented grammar of the attribute payload:
`annotation* visibility? identifier (: type)?`. -/
def MatchesGrammar (ts : List ATok) : Prop :=
  ∃ (as : List Nat) (v : Option Nat) (i : String) (oty : Option RTy),
    ts = as.map ATok.attrTok ++ visOpt v ++ [ATok.ident i] ++ tyOpt oty

/-! Section: Code emission (`macros/src/lib.rs` lines 64-140) -/

/-- The annotated function, as `tested_fixture_helper` reads it: its
pass-through attributes, visibility, name, and declared return type
(`none` models `ReturnType::Default`, replaced by the unit tuple type). -/
structure ItemFn where
  attrs : List Nat
  vis : Option Nat
  ident : String
  output : Option RTy
  deriving DecidableEq, Repr

/-- The unit tuple type `()` substituted for a missing return type
(macro lines 80-86). -/
def unitTy : RTy := .base 0

/-- An attribute on an emitted item: a pass-through attribute, the added
`#[cfg(test)]`, or the added `#[test]`. -/
inductive EmAttr where
  | pass : Nat → EmAttr
  | cfgTest : EmAttr
  | testAttr : EmAttr
  deriving DecidableEq, Repr

/-- The emitted static fixture binding
`attrs* #[cfg(test)] vis static ident: Lazy<&fixture_ty> = ...`
(macro lines 102-105); `lazyTy` is the `fixture_ty` inside `Lazy<&_>`. -/
structure StaticItem where
  attrs : List EmAttr
  vis : Option Nat
  ident : String
  lazyTy : RTy
  deriving DecidableEq, Repr

/-- The emitted test function `attrs* #[test] vis fn ident() -> Result<impl
Unwrap<fixture_ty>, impl Debug> { ... }` (macro lines 107-135);
`unwrapTarget` is the `fixture_ty` the `Unwrap` bound targets. -/
structure TestItem where
  attrs : List EmAttr
  vis : Option Nat
  ident : String
  unwrapTarget : RTy
  deriving DecidableEq, Repr

/-- The `tested_fixture_helper`: parse the payload (failure aborts expansion
with a diagnostic and emits nothing), take `func_out` as the declared
return type or `()`, take `fixture_ty` as the explicitly declared type or
`func_out` (line 91), and emit the static binding and the rewritten test. -/
def tested_fixture_helper (attrToks : List ATok) (func : ItemFn) :
    Option (StaticItem × TestItem) :=
  match Attr.parse attrToks with
  | none => none
  | some a =>
    let func_out := func.output.getD unitTy
    let fixture_ty := a.ty.getD func_out
    some
      (⟨a.attrs.map EmAttr.pass ++ [EmAttr.cfgTest], a.vis, a.ident, fixture_ty⟩,
       ⟨func.attrs.map EmAttr.pass ++ [EmAttr.testAttr], func.vis, func.ident,
        fixture_ty⟩)

/-- Well-typedness of a stored outcome against the declared return type:
the `Ok` side holds a value of the return type, the `Err` side holds the
sentinel string. -/
def wfCell : Outcome → RTy → Bool
  | .ok v, t => wfR v t
  | .error _, _ => true

/-- The `Debug` representation of the failure a stored outcome carries, if
any: the quoted sentinel on the abnormal-termination side, the first
explicit error on the value side. -/
def failureRepr : Outcome → Option String
  | .error s => some (strDebug s)
  | .ok v => firstErr v

/-! Theorems -/

/-- The `runReads` on an already-filled cell: every accessor observes the stored
outcome, the cell never changes, and the body is never invoked. -/
theorem runReads_filled (b : BodyRun) (o : Outcome) :
    ∀ n, runReads b n (some o) = (List.replicate n o, some o, 0)
  | 0 => rfl
  | n + 1 => by
    simp [runReads, get_or_init, runReads_filled b o n, List.replicate]

/-- The `runReads` from an empty cell: the first access fills the cell with the
body's stored outcome (one body execution) and every accessor observes it. -/
theorem runReads_none_succ (b : BodyRun) (n : Nat) :
    runReads b (n + 1) none =
      (storedOutcome b :: List.replicate n (storedOutcome b),
       some (storedOutcome b), 1) := by
  simp [runReads, get_or_init, runReads_filled]

/-- C1: For every fixture whose body succeeds, the original function body is
executed at most once per process regardless of how many tests read the
fixture or in what order: the generated test routes the body through the
one-time cache cell's `get_or_init`, which invokes the body only when the
cell is empty and otherwise returns the stored outcome.  (The at-most-once
bound holds for every body, succeeding or not.) -/
theorem onceCell_single_execution :
    (∀ (α : Type) (f : Unit → α) (v : α), get_or_init (some v) f = (v, some v, 0)) ∧
    (∀ (α : Type) (f : Unit → α), get_or_init none f = (f (), some (f ()), 1)) ∧
    (∀ (b : BodyRun) (n : Nat), (runReads b n none).2.2 ≤ 1) := by
  refine ⟨fun α f v => rfl, fun α f => rfl, fun b n => ?_⟩
  cases n with
  | zero => simp [runReads]
  | succ n => simp [runReads_none_succ]

/-- C3: Once the fixture's cache cell is filled, it never changes for the
remaining process lifetime: reads of a filled cell return the identical
stored outcome with no body re-execution (in particular no retry after a
failure), and starting from an empty cell every accessor in the sequence
observes the one stored outcome. -/
theorem cell_fill_permanent :
    (∀ (b : BodyRun) (o : Outcome) (n : Nat),
        runReads b n (some o) = (List.replicate n o, some o, 0)) ∧
    (∀ (b : BodyRun) (n : Nat), 0 < n →
        runReads b n none =
          (List.replicate n (storedOutcome b), some (storedOutcome b), 1)) := by
  refine ⟨fun b o n => runReads_filled b o n, fun b n hn => ?_⟩
  cases n with
  | zero => exact absurd hn (by simp)
  | succ n => simp [runReads_none_succ, List.replicate]

/-- Witness for C3: three reads of a fixture whose body fails with an
explicit error all observe the identical stored failure, after exactly one
body execution. -/
theorem cell_fill_permanent_witness :
    runReads (BodyRun.ret (RVal.err "\"disk full\"")) 3 none =
      (List.replicate 3 (Except.ok (RVal.err "\"disk full\"")),
       some (Except.ok (RVal.err "\"disk full\"")), 1) := by
  have h := cell_fill_permanent.2 (BodyRun.ret (RVal.err "\"disk full\"")) 3 (by decide)
  simpa [storedOutcome, catchUnwind] using h

/-- C2: If the fixture body panics during its single execution, the captured
abnormal termination is replaced by the fixed sentinel string `"panicked"`,
discarding the original panic payload; every dependent read then fails with
a message containing that sentinel, and the message is the same for every
payload (so it never reflects the original payload). -/
theorem panic_sentinel_replacement :
    (∀ p, storedOutcome (.panics p) = .error "panicked") ∧
    (∀ ctx p, unwrapV ctx (fullV (storedOutcome (.panics p))) =
        .error (ctx ++ " failed: " ++ strDebug "panicked")) ∧
    (∀ ctx p q, unwrapV ctx (fullV (storedOutcome (.panics p))) =
        unwrapV ctx (fullV (storedOutcome (.panics q)))) ∧
    (∀ ctx p, ∃ pre post,
        unwrapV ctx (fullV (storedOutcome (.panics p))) =
          .error (pre ++ "panicked" ++ post)) := by
  refine ⟨fun p => rfl, fun ctx p => rfl, fun ctx p q => rfl, fun ctx p => ?_⟩
  refine ⟨ctx ++ " failed: " ++ "\"", "\"", ?_⟩
  show Except.error (ctx ++ " failed: " ++ strDebug "panicked") = _
  simp only [strDebug, String.append_assoc]

/-- C10: In the `StaticallyBorrow` implementation for `Result` with the
uninhabited `Infallible` error type, the `Err` branch is unreachable for
every value: `static_borrow` always returns the borrow of the success value,
so the `unreachable!` assertion can never fire. -/
theorem infallible_static_borrow :
    ∀ (T U : Type) (inner : T → U) (x : Except Empty T),
      ∃ v, x = .ok v ∧ static_borrow inner x = inner v := by
  intro T U inner x
  cases x with
  | ok v => exact ⟨v, rfl, rfl⟩
  | error e => exact e.elim

/-- Unwrapping a chain grown over a `ReportSuccess` tower: every further
`fix` only adds an infallible `Ok(ReportSuccess(..))` layer, and
`static_borrow` sees through all of them to the borrowed value. -/
theorem unwrapV_chainV_rs (ctx : String) (w : RVal) :
    ∀ (k : Nat) (c : CVal), sbV c = some w →
      unwrapV ctx (chainV k (.rs c)) = .ok w
  | 0, c, h => by simp [chainV, unwrapV, h]
  | k + 1, c, h => by
    have ih := unwrapV_chainV_rs ctx w k (.rs c) (by simpa [sbV] using h)
    simpa [chainV, fixV, unwrapV] using ih

/-- The normalization chain followed by `unwrap`, on a reference into a
well-typed stored value, when the chain is longer than the value's `Result`
nesting: the result is the first failure's message, or the leaf value. -/
theorem unwrapV_chainV_ref (ctx : String) :
    ∀ (v : RVal) (t : RTy) (n : Nat), wfR v t = true → t.resDepth < n →
      unwrapV ctx (chainV n (.ref v)) =
        match firstErr v with
        | some e => .error (ctx ++ " failed: " ++ e)
        | none => .ok (.base (leafD v)) := by
  intro v
  induction v with
  | base m =>
    intro t n hw hd
    cases t with
    | base i =>
      cases n with
      | zero => simp [RTy.resDepth] at hd
      | succ n =>
        have h := unwrapV_chainV_rs ctx (.base m) n (.ref (.base m)) (by simp [sbV])
        simpa [chainV, fixV, unwrapV, firstErr, leafD] using h
    | res t => simp [wfR] at hw
  | ok v ih =>
    intro t n hw hd
    cases t with
    | base i => simp [wfR] at hw
    | res t =>
      cases n with
      | zero => simp [RTy.resDepth] at hd
      | succ n =>
        have hd' : t.resDepth < n := by
          simpa [RTy.resDepth, Nat.succ_lt_succ_iff] using hd
        have h := ih t n (by simpa [wfR] using hw) hd'
        simpa [chainV, fixV, unwrapV, firstErr, leafD] using h
  | err e =>
    intro t n hw hd
    cases t with
    | base i => simp [wfR] at hw
    | res t =>
      cases n with
      | zero => simp [RTy.resDepth] at hd
      | succ n => simp [chainV, fixV, unwrapV, firstErr]

/-- C4: When the unwrap protocol reaches a failure at any layer of the
stored outcome, the calling test fails with a message of exactly the form
`"<context> failed: <failure-representation>"`, the context combined with
the `Debug` form of the failure — whether the body errored explicitly (an
`Err` layer of the stored value) or terminated abnormally (the sentinel on
the cell's error side). -/
theorem dependent_failure_message (ctx : String) (t : RTy) (cell : Outcome)
    (hw : wfCell cell t = true) (hd : t.resDepth ≤ 3) :
    ∀ m, unwrapV ctx (fullV cell) = .error m →
      ∃ e, failureRepr cell = some e ∧ m = ctx ++ " failed: " ++ e := by
  intro m hm
  cases cell with
  | error s =>
    refine ⟨strDebug s, rfl, ?_⟩
    have h : (Except.error (ctx ++ " failed: " ++ strDebug s) : Except String RVal) =
        .error m := by
      simpa [fullV, unwrapV] using hm
    exact (Except.error.inj h).symm
  | ok v =>
    have h := unwrapV_chainV_ref ctx v t 4 (by simpa [wfCell] using hw)
      (Nat.lt_succ_of_le hd)
    rw [show fullV (.ok v) = .vok (chainV 4 (.ref v)) from rfl] at hm
    rw [show unwrapV ctx (.vok (chainV 4 (.ref v))) =
      unwrapV ctx (chainV 4 (.ref v)) from rfl, h] at hm
    cases he : firstErr v with
    | some e =>
      rw [he] at hm
      simp only [failureRepr, he]
      exact ⟨e, rfl, (Except.error.inj hm).symm⟩
    | none => rw [he] at hm; exact absurd hm (by simp)

/-- Witness for C4: the crate's own `fail_setup` scenario — a fixture body
returning an explicit error — fails its dependent with exactly the
documented message. -/
theorem dependent_failure_message_witness :
    ∃ e, failureRepr (.ok (.err "\"failed due to reticulated splines\"")) = some e ∧
      "tested_fixture::tests::fail_setup" ++ " failed: " ++
          "\"failed due to reticulated splines\"" =
        "tested_fixture::tests::fail_setup" ++ " failed: " ++ e := by
  have h := dependent_failure_message "tested_fixture::tests::fail_setup"
    (.res (.base 1)) (.ok (.err "\"failed due to reticulated splines\""))
    (by decide) (by decide)
    ("tested_fixture::tests::fail_setup" ++ " failed: " ++
      "\"failed due to reticulated splines\"") rfl
  exact h

/-- The `Unwrap` resolution for a chain grown over a `ReportSuccess` tower:
it reduces to `StaticallyBorrow` resolution on the tower's content. -/
theorem hasUnwrapImpl_chainTy_rs (u : RTy) :
    ∀ (k : Nat) (c : CTy),
      hasUnwrapImpl (chainTy k (.rs c)) u = (sbTy c == some u)
  | 0, c => by simp [chainTy, hasUnwrapImpl]
  | k + 1, c => by
    have ih := hasUnwrapImpl_chainTy_rs u k (.rs c)
    simpa [chainTy, fixTy, hasUnwrapImpl, sbTy] using ih

/-- The `Unwrap<u>` resolution for the `n`-fix chain over `&'static t`: an impl
exists exactly when the chain is longer than `t`'s `Result` nesting and `u`
is the fully unwrapped core of `t`. -/
theorem hasUnwrapImpl_chainTy_ref (u : RTy) :
    ∀ (t : RTy) (n : Nat),
      (hasUnwrapImpl (chainTy n (.ref t)) u = true ↔
        (t.resDepth < n ∧ u = t.coreTy)) := by
  intro t
  induction t with
  | base i =>
    intro n
    cases n with
    | zero => simp [chainTy, hasUnwrapImpl, RTy.resDepth]
    | succ n =>
      have h := hasUnwrapImpl_chainTy_rs u n (.ref (.base i))
      have h2 : hasUnwrapImpl (chainTy (n + 1) (.ref (.base i))) u =
          hasUnwrapImpl (chainTy n (.rs (.ref (.base i)))) u := rfl
      rw [h2, h]
      simp only [sbTy, RTy.resDepth, RTy.coreTy, Nat.succ_pos, true_and,
        beq_iff_eq, Option.some.injEq]
      exact eq_comm
  | res t ih =>
    intro n
    cases n with
    | zero => simp [chainTy, hasUnwrapImpl, RTy.resDepth]
    | succ n =>
      have h2 : chainTy (n + 1) (.ref (.res t)) =
          .res false (chainTy n (.ref t)) := by
        simp [chainTy, fixTy]
      rw [h2]
      simp only [hasUnwrapImpl, ih n, RTy.resDepth, RTy.coreTy,
        Nat.succ_lt_succ_iff]

/-- C5: The unwrap protocol descends through at most a fixed maximum of 4
nested success/failure wrapper layers of the stored outcome
(`Result<func_out, &str>`), unwrapping one layer per level: an `Unwrap`
impl for the generated expression exists exactly when the outcome's nesting
depth is at most 4 (and the target is the fully unwrapped core type), so
deeper nesting is rejected at compile time; at runtime an accepted fixture's
unwrap returns the leaf value when every layer succeeds and fails at the
first failure encountered. -/
theorem unwrap_depth_bound :
    (∀ (t u : RTy), hasUnwrapImpl (fullTy t) u = true ↔
        ((RTy.res t).resDepth ≤ 4 ∧ u = t.coreTy)) ∧
    (∀ (ctx : String) (t : RTy) (v : RVal),
        wfR v t = true → (RTy.res t).resDepth ≤ 4 →
        (∀ e, firstErr v = some e →
            unwrapV ctx (fullV (.ok v)) = .error (ctx ++ " failed: " ++ e)) ∧
        (firstErr v = none →
            unwrapV ctx (fullV (.ok v)) = .ok (.base (leafD v)))) := by
  constructor
  · intro t u
    have h := hasUnwrapImpl_chainTy_ref u t 4
    have h2 : hasUnwrapImpl (fullTy t) u = hasUnwrapImpl (chainTy 4 (.ref t)) u := by
      simp [fullTy, hasUnwrapImpl]
    rw [h2, h]
    simp [RTy.resDepth, Nat.lt_succ_iff, Nat.succ_le_succ_iff]
  · intro ctx t v hw hd
    have hd' : t.resDepth < 4 := by
      simpa [RTy.resDepth, Nat.succ_le_succ_iff, Nat.lt_succ_iff] using hd
    have h := unwrapV_chainV_ref ctx v t 4 hw hd'
    have h2 : unwrapV ctx (fullV (.ok v)) = unwrapV ctx (chainV 4 (.ref v)) := rfl
    constructor
    · intro e he
      rw [h2, h, he]
    · intro he
      rw [h2, h, he]

/-- Witness for C5: a depth-2 outcome (`Result`-returning body stored in the
cell) whose inner layer fails is unwrapped to the documented failure. -/
theorem unwrap_depth_bound_witness :
    unwrapV "c" (fullV (.ok (.err "\"E\""))) =
      .error ("c" ++ " failed: " ++ "\"E\"") :=
  (unwrap_depth_bound.2 "c" (.res (.base 1)) (.err "\"E\"")
    (by decide) (by decide)).1 "\"E\"" rfl

/-- C6: For every source function whose declared return type is not a
success/failure wrapper, the returned plain value is normalized into an
always-succeeding single-layer outcome — `Fix::fix` produces
`Ok(ReportSuccess(value))` with the uninhabited `Infallible` error type —
before entering the unwrap protocol, so a plain return can never produce a
failure. -/
theorem plain_return_normalization :
    (∀ (T : Type) (x : Fixer T), ∃ r, Fix.fix x = .ok r ∧ r.val = x.val) ∧
    (∀ i, fixTy (.ref (.base i)) = .res true (.rs (.ref (.base i)))) ∧
    (∀ n, fixV (.ref (.base n)) = .vok (.rs (.ref (.base n)))) ∧
    (∀ (ctx : String) (n : Nat),
        unwrapV ctx (fullV (.ok (.base n))) = .ok (.base n)) := by
  refine ⟨fun T x => ⟨⟨x.val⟩, rfl, rfl⟩, fun i => rfl, fun n => rfl, fun ctx n => ?_⟩
  have h := unwrapV_chainV_ref ctx (.base n) (.base 0) 4 (by simp [wfR])
    (by simp [RTy.resDepth])
  simpa [fullV, unwrapV, firstErr, leafD] using h

/-- The `parseOuterAttrs` splits the input: the consumed attributes followed by
the remainder reassemble the input. -/
theorem parseOuterAttrs_decomp :
    ∀ ts : List ATok,
      (parseOuterAttrs ts).1.map ATok.attrTok ++ (parseOuterAttrs ts).2 = ts
  | [] => rfl
  | .attrTok a :: rest => by
    have ih := parseOuterAttrs_decomp rest
    simp [parseOuterAttrs, ih]
  | .vis _ :: _ => rfl
  | .ident _ :: _ => rfl
  | .colon :: _ => rfl
  | .ty _ :: _ => rfl

/-- The `parseOuterAttrs` is greedy: the remainder never starts with an
attribute token. -/
theorem parseOuterAttrs_rest :
    ∀ (ts : List ATok) (a : Nat) (r : List ATok),
      (parseOuterAttrs ts).2 ≠ ATok.attrTok a :: r
  | [], a, r => by simp [parseOuterAttrs]
  | .attrTok x :: rest, a, r => by
    simpa [parseOuterAttrs] using parseOuterAttrs_rest rest a r
  | .vis _ :: _, a, r => by simp [parseOuterAttrs]
  | .ident _ :: _, a, r => by simp [parseOuterAttrs]
  | .colon :: _, a, r => by simp [parseOuterAttrs]
  | .ty _ :: _, a, r => by simp [parseOuterAttrs]

/-- The `parseOuterAttrs` consumes exactly a mapped attribute prefix when the
remainder does not start with an attribute token. -/
theorem parseOuterAttrs_append (rest : List ATok)
    (hr : ∀ (a : Nat) (r : List ATok), rest ≠ ATok.attrTok a :: r) :
    ∀ as : List Nat, parseOuterAttrs (as.map ATok.attrTok ++ rest) = (as, rest)
  | [] => by
    cases rest with
    | nil => rfl
    | cons h tl =>
      cases h with
      | attrTok a => exact absurd rfl (hr a tl)
      | vis _ => rfl
      | ident _ => rfl
      | colon => rfl
      | ty _ => rfl
  | a :: as => by
    have ih := parseOuterAttrs_append rest hr as
    simp [parseOuterAttrs, ih]

/-- The `parseVis` splits the input: the consumed visibility followed by the
remainder reassembles the input. -/
theorem parseVis_decomp (ts : List ATok) :
    visOpt (parseVis ts).1 ++ (parseVis ts).2 = ts := by
  cases ts with
  | nil => rfl
  | cons h tl => cases h <;> rfl

/-- The `parseTail` succeeds only on `ident` or `ident : type` followed by the
end of the stream, and records the colon exactly when the type was parsed. -/
theorem parseTail_shape (attrs : List Nat) (vis : Option Nat)
    (ts : List ATok) (a : Attr) (h : parseTail attrs vis ts = some a) :
    ts = ATok.ident a.ident :: tyOpt a.ty ∧ a.colon = a.ty.isSome ∧
    a.attrs = attrs ∧ a.vis = vis := by
  unfold parseTail at h
  split at h
  · obtain rfl := Option.some.inj h
    exact ⟨rfl, rfl, rfl, rfl⟩
  · obtain rfl := Option.some.inj h
    exact ⟨rfl, rfl, rfl, rfl⟩
  · exact absurd h (by simp)

/-- Full characterization of `Attr::parse`: it returns `a` exactly when the
input is `a`'s attributes, visibility, identifier and optional typed suffix
in grammar order, with the colon recorded exactly when the type is present. -/
theorem Attr.parse_eq_some_iff (ts : List ATok) (a : Attr) :
    Attr.parse ts = some a ↔
      (a.colon = a.ty.isSome ∧
       ts = a.attrs.map ATok.attrTok ++ visOpt a.vis ++
         [ATok.ident a.ident] ++ tyOpt a.ty) := by
  obtain ⟨as, v, i, c, oty⟩ := a
  constructor
  · intro h
    unfold Attr.parse at h
    set p := parseOuterAttrs ts with hp
    set q := parseVis p.2 with hq
    obtain ⟨hts2, hc, hattrs, hvis⟩ := parseTail_shape _ _ _ _ h
    simp only at hts2 hc hattrs hvis
    have h1 : p.1.map ATok.attrTok ++ p.2 = ts := parseOuterAttrs_decomp ts
    have h2 : visOpt q.1 ++ q.2 = p.2 := parseVis_decomp p.2
    refine ⟨hc, ?_⟩
    rw [hattrs, hvis, ← h1, ← h2, hts2]
    simp [List.append_assoc]
  · rintro ⟨hc, rfl⟩
    have hr : ∀ (x : Nat) (r : List ATok),
        visOpt v ++ [ATok.ident i] ++ tyOpt oty ≠ ATok.attrTok x :: r := by
      cases v <;> simp [visOpt]
    have hp := parseOuterAttrs_append _ hr as
    unfold Attr.parse
    rw [show as.map ATok.attrTok ++ visOpt v ++ [ATok.ident i] ++ tyOpt oty =
      as.map ATok.attrTok ++ (visOpt v ++ [ATok.ident i] ++ tyOpt oty) by
        simp [List.append_assoc]]
    rw [hp]
    simp only at hc ⊢
    cases v with
    | none =>
      cases oty with
      | none => simp [visOpt, tyOpt, parseVis, parseTail, hc]
      | some t => simp [visOpt, tyOpt, parseVis, parseTail, hc]
    | some v0 =>
      cases oty with
      | none => simp [visOpt, tyOpt, parseVis, parseTail, hc]
      | some t => simp [visOpt, tyOpt, parseVis, parseTail, hc]

/-- C8: The attribute payload parser accepts exactly the grammar
`annotation* visibility? identifier (: type)?` — the type is parsed if and
only if a `:` token follows the identifier — and any payload not matching
this grammar fails at compile time with a diagnostic, producing no
generated output (there is no runtime error path: the result is simply
`none`). -/
theorem attr_payload_grammar :
    (∀ ts : List ATok, (Attr.parse ts).isSome = true ↔ MatchesGrammar ts) ∧
    (∀ (ts : List ATok) (a : Attr), Attr.parse ts = some a →
        ((a.ty.isSome = true ↔ a.colon = true) ∧
         (a.colon = true ↔ ATok.colon ∈ ts))) ∧
    (∀ (ts : List ATok) (func : ItemFn),
        ¬ MatchesGrammar ts → tested_fixture_helper ts func = none) := by
  refine ⟨?_, ?_, ?_⟩
  · intro ts
    constructor
    · intro hs
      obtain ⟨a, ha⟩ := Option.isSome_iff_exists.mp hs
      obtain ⟨hc, hts⟩ := (Attr.parse_eq_some_iff ts a).mp ha
      exact ⟨a.attrs, a.vis, a.ident, a.ty, hts⟩
    · rintro ⟨as, v, i, oty, rfl⟩
      rw [Option.isSome_iff_exists]
      refine ⟨⟨as, v, i, oty.isSome, oty⟩, ?_⟩
      have h := (Attr.parse_eq_some_iff _ ⟨as, v, i, oty.isSome, oty⟩).mpr
        ⟨rfl, rfl⟩
      simpa using h
  · intro ts a ha
    obtain ⟨hc, hts⟩ := (Attr.parse_eq_some_iff ts a).mp ha
    constructor
    · rw [hc]
    · subst hts
      rw [hc]
      cases a.ty <;> cases a.vis <;> simp [tyOpt, visOpt]
  · intro ts func hg
    cases h : Attr.parse ts with
    | none => simp [tested_fixture_helper, h]
    | some a =>
      obtain ⟨hc, hts⟩ := (Attr.parse_eq_some_iff ts a).mp h
      exact absurd ⟨a.attrs, a.vis, a.ident, a.ty, hts⟩ hg

/-- Witness for C8: a payload with a visibility, an identifier and a typed
suffix parses, records the colon, and the colon token is present exactly as
the grammar places it. -/
theorem attr_payload_grammar_witness :
    ((Attr.mk [] (some 2) "X" true (some (RTy.base 7))).ty.isSome = true ↔
        (Attr.mk [] (some 2) "X" true (some (RTy.base 7))).colon = true) ∧
    ((Attr.mk [] (some 2) "X" true (some (RTy.base 7))).colon = true ↔
        ATok.colon ∈ [ATok.vis 2, ATok.ident "X", ATok.colon,
          ATok.ty (RTy.base 7)]) :=
  attr_payload_grammar.2.1 _ _ rfl

/-- C7: For every accepted attribute payload and annotated function, the
generated fixture binding's type (the `fixture_ty` inside `Lazy<&_>`) is
exactly the type explicitly declared in the attribute when one is given,
and otherwise exactly the source function's declared return type (the unit
tuple when the return type is omitted). -/
theorem fixture_binding_type (toks : List ATok) (func : ItemFn) (a : Attr)
    (st : StaticItem) (te : TestItem)
    (hp : Attr.parse toks = some a)
    (hh : tested_fixture_helper toks func = some (st, te)) :
    (∀ u, a.ty = some u → st.lazyTy = u) ∧
    (a.ty = none → ∀ r, func.output = some r → st.lazyTy = r) ∧
    (a.ty = none → func.output = none → st.lazyTy = unitTy) := by
  unfold tested_fixture_helper at hh
  rw [hp] at hh
  simp only [Option.some.injEq, Prod.mk.injEq] at hh
  obtain ⟨hst, hte⟩ := hh
  subst hst
  refine ⟨?_, ?_, ?_⟩
  · rintro u hu
    simp [hu]
  · rintro h0 r hr
    simp [h0, hr]
  · rintro h0 h1
    simp [h0, h1]

/-- Witness for C7: the crate's `SETUP_2: HeavySetup` scenario — an explicit
type on a `Result`-returning function — yields a binding of exactly the
declared type. -/
theorem fixture_binding_type_witness :
    (StaticItem.mk [EmAttr.cfgTest] none "FIX" (RTy.base 5)).lazyTy =
      RTy.base 5 :=
  (fixture_binding_type [ATok.ident "FIX", ATok.colon, ATok.ty (RTy.base 5)]
      (ItemFn.mk [] none "setup" (some (RTy.res (RTy.base 5))))
      (Attr.mk [] none "FIX" true (some (RTy.base 5)))
      (StaticItem.mk [EmAttr.cfgTest] none "FIX" (RTy.base 5))
      (TestItem.mk [EmAttr.testAttr] none "setup" (RTy.base 5))
      rfl rfl).1 (RTy.base 5) rfl

/-- C9: The generated fixture binding is emitted with a `#[cfg(test)]`
attribute in addition to the pass-through annotations, so the static
fixture exists only in test compilations. -/
theorem cfg_test_on_binding (toks : List ATok) (func : ItemFn)
    (st : StaticItem) (te : TestItem)
    (hh : tested_fixture_helper toks func = some (st, te)) :
    ∃ a, Attr.parse toks = some a ∧
      st.attrs = a.attrs.map EmAttr.pass ++ [EmAttr.cfgTest] ∧
      EmAttr.cfgTest ∈ st.attrs := by
  unfold tested_fixture_helper at hh
  cases hpa : Attr.parse toks with
  | none =>
    rw [hpa] at hh
    exact absurd hh (by simp)
  | some a =>
    rw [hpa] at hh
    simp only [Option.some.injEq, Prod.mk.injEq] at hh
    obtain ⟨hst, hte⟩ := hh
    subst hst
    exact ⟨a, rfl, rfl, by simp⟩

/-- Witness for C9: a payload with one pass-through annotation produces a
binding carrying that annotation followed by `#[cfg(test)]`. -/
theorem cfg_test_on_binding_witness :
    ∃ a, Attr.parse [ATok.attrTok 9, ATok.ident "S"] = some a ∧
      (StaticItem.mk [EmAttr.pass 9, EmAttr.cfgTest] none "S" unitTy).attrs =
        a.attrs.map EmAttr.pass ++ [EmAttr.cfgTest] ∧
      EmAttr.cfgTest ∈
        (StaticItem.mk [EmAttr.pass 9, EmAttr.cfgTest] none "S" unitTy).attrs :=
  cfg_test_on_binding [ATok.attrTok 9, ATok.ident "S"]
    (ItemFn.mk [3] (some 1) "f" none)
    (StaticItem.mk [EmAttr.pass 9, EmAttr.cfgTest] none "S" unitTy)
    (TestItem.mk [EmAttr.pass 3, EmAttr.testAttr] (some 1) "f" unitTy)
    rfl

end TestedFixture
